import Mathlib

set_option maxHeartbeats 4000000

/-!
Shallow embedding of the DLL diagnostic logging subsystem
(src/Logging.cpp, src/DllReg.cpp).

Paths, messages and the log file content are modelled as lists of
characters.  Windows buffer sizes and the safe-CRT failure behaviour are
modelled explicitly: the functions strcpy_s, strcat_s and sprintf_s
invoke the invalid-parameter constraint handler when the destination
buffer is too small, so the call does not return normally; we model a
call that reaches such a handler by the result none, and a normal return
by some.  File-system effects (CreateFileA / WriteFile / CloseHandle)
are modelled by an explicit outcome parameter choosing between the open
failing, the write failing, and full success, exactly the branches the
code distinguishes.
-/

namespace OneNoteDebug

def MAX_PATH : Nat := 260

/-- strrchr over a character list: index of the last occurrence of c. -/
def lastIdxOf (c : Char) : List Char → Option Nat
  | [] => none
  | x :: xs =>
    match lastIdxOf c xs with
    | some i => some (i + 1)
    | none => if x = c then some 0 else none

/-- GetModuleFileNameA copies the module path into a buffer of the given
size, truncating it to size - 1 characters plus the terminator. -/
def getModuleFileNameA (realPath : List Char) (size : Nat) : List Char :=
  realPath.take (size - 1)

def dotLog : List Char := ['.', 'l', 'o', 'g']

/-- GetLogFilePath from src/Logging.cpp: read the module path into the
buffer, find the last dot with strrchr; if found, strcpy_s overwrites
from the dot with ".log" (the remaining space is logPathSize - i, and
strcpy_s requires room for ".log" plus the terminator, five bytes);
otherwise strcat_s appends ".log" (requiring the whole result plus
terminator to fit).  none models the safe-CRT constraint handler firing
on insufficient space. -/
def getLogFilePath (modulePath : List Char) (logPathSize : Nat) : Option (List Char) :=
  let buf := getModuleFileNameA modulePath logPathSize
  match lastIdxOf '.' buf with
  | some i => if i + 5 ≤ logPathSize then some (buf.take i ++ dotLog) else none
  | none => if buf.length + 5 ≤ logPathSize then some (buf ++ dotLog) else none

/-- The log path GetLogFilePath aims to compute, without any buffer
bound: the module path with everything from its last dot on replaced by
".log", or with ".log" appended when it has no dot.  Used to express
when the computed log path would overflow the bounded buffer. -/
def idealLogPath (modulePath : List Char) : List Char :=
  match lastIdxOf '.' modulePath with
  | some i => modulePath.take i ++ dotLog
  | none => modulePath ++ dotLog

/-- SYSTEMTIME as filled in by GetLocalTime. -/
structure SYSTEMTIME where
  wYear : Nat
  wMonth : Nat
  wDay : Nat
  wHour : Nat
  wMinute : Nat
  wSecond : Nat
  wMilliseconds : Nat
deriving DecidableEq

/-- The ranges of SYSTEMTIME values GetLocalTime can report. -/
def SYSTEMTIME.Valid (st : SYSTEMTIME) : Prop :=
  1601 ≤ st.wYear ∧ st.wYear ≤ 30827 ∧
  1 ≤ st.wMonth ∧ st.wMonth ≤ 12 ∧
  1 ≤ st.wDay ∧ st.wDay ≤ 31 ∧
  st.wHour ≤ 23 ∧ st.wMinute ≤ 59 ∧ st.wSecond ≤ 59 ∧
  st.wMilliseconds ≤ 999

instance (st : SYSTEMTIME) : Decidable st.Valid := by
  unfold SYSTEMTIME.Valid; infer_instance

def digitChar : Nat → Char
  | 0 => '0'
  | 1 => '1'
  | 2 => '2'
  | 3 => '3'
  | 4 => '4'
  | 5 => '5'
  | 6 => '6'
  | 7 => '7'
  | 8 => '8'
  | _ => '9'

/-- Decimal digits of n, most significant first, with explicit fuel so
that the definition is structural (fuel n + 1 always suffices). -/
def decDigitsAux : Nat → Nat → List Char
  | 0, _ => []
  | fuel + 1, n =>
    if n < 10 then [digitChar n]
    else decDigitsAux fuel (n / 10) ++ [digitChar (n % 10)]

/-- Decimal rendering of n as printf does for an unsigned value. -/
def decDigits (n : Nat) : List Char := decDigitsAux (n + 1) n

/-- printf zero-padding "%0wd": at least w characters, padded with
leading zeros, but wider when the value needs more digits. -/
def pad0 (w n : Nat) : List Char :=
  List.replicate (w - (decDigits n).length) '0' ++ decDigits n

/-- Numeric value of a digit string (for reading a rendering back). -/
def decValue (s : List Char) : Nat :=
  s.foldl (fun a c => 10 * a + (c.toNat - 48)) 0

/-- GetTimestamp from src/Logging.cpp: sprintf_s with format
"%04d-%02d-%02d %02d:%02d:%02d.%03d" over the SYSTEMTIME fields. -/
def getTimestamp (st : SYSTEMTIME) : List Char :=
  pad0 4 st.wYear ++ '-' :: (pad0 2 st.wMonth ++ '-' :: (pad0 2 st.wDay ++ ' ' ::
  (pad0 2 st.wHour ++ ':' :: (pad0 2 st.wMinute ++ ':' :: (pad0 2 st.wSecond ++ '.' ::
  pad0 3 st.wMilliseconds)))))

/-- The timestamp buffer in Log and LogProcess is 32 bytes; sprintf_s
fires the constraint handler when the rendering does not fit. -/
def getTimestampBuf (st : SYSTEMTIME) : Option (List Char) :=
  let t := getTimestamp st
  if t.length + 1 ≤ 32 then some t else none

/-- Body of a generic log entry: "[%s]: [%s]: %s" over timestamp,
function name and message. -/
def entryBody (ts tag msg : List Char) : List Char :=
  '[' :: (ts ++ ']' :: ':' :: ' ' :: '[' :: (tag ++ ']' :: ':' :: ' ' :: msg))

/-- A generic log entry: the body followed by CRLF. -/
def mkLogEntry (ts tag msg : List Char) : List Char :=
  entryBody ts tag msg ++ ['\r', '\n']

/-- strrchr(processPath, '\\') then skipping the backslash; the whole
path when no backslash occurs. -/
def basenameAfterBackslash (p : List Char) : List Char :=
  match lastIdxOf '\\' p with
  | some i => p.drop (i + 1)
  | none => p

/-- Body of the process-info entry:
"[%s]: [ProcessInfo]: Process=%s PID=%lu Path=%s". -/
def processBody (ts name pidStr path : List Char) : List Char :=
  '[' :: (ts ++ (']' :: ':' :: ' ' :: '[' :: 'P' :: 'r' :: 'o' :: 'c' :: 'e' :: 's' :: 's' ::
    'I' :: 'n' :: 'f' :: 'o' :: ']' :: ':' :: ' ' ::
    'P' :: 'r' :: 'o' :: 'c' :: 'e' :: 's' :: 's' :: '=' ::
    (name ++ (' ' :: 'P' :: 'I' :: 'D' :: '=' ::
    (pidStr ++ (' ' :: 'P' :: 'a' :: 't' :: 'h' :: '=' :: path))))))

/-- A process-info entry: the body followed by CRLF. -/
def mkProcessEntry (ts name pidStr path : List Char) : List Char :=
  processBody ts name pidStr path ++ ['\r', '\n']

/-- The state of the log file: absent, or present with its content. -/
inductive FsFile where
  | absent
  | present (content : List Char)
deriving DecidableEq

/-- The bytes of the file (empty when absent; OPEN_ALWAYS creates the
file empty in that case). -/
def FsFile.data : FsFile → List Char
  | .absent => []
  | .present c => c

/-- Outcome of one CreateFileA / WriteFile cycle, the only branches the
code distinguishes: the open fails (INVALID_HANDLE_VALUE), the write
fails (WriteFile returns FALSE; its result is ignored anyway), or both
succeed. -/
inductive IoOutcome where
  | openFail
  | writeFail
  | ok
deriving DecidableEq

/-- Handle events of one call, for stating resource safety. -/
inductive FEvent where
  | openedHandle
  | wroteFile
  | closedHandle
deriving DecidableEq

/-- Handle trace of one open-write-close cycle: on open failure no
handle exists; otherwise the handle is opened, WriteFile is attempted
(successfully or not), and CloseHandle always runs. -/
def eventsOf : IoOutcome → List FEvent
  | .openFail => []
  | .writeFail => [.openedHandle, .wroteFile, .closedHandle]
  | .ok => [.openedHandle, .wroteFile, .closedHandle]

/-- Effect of the open-write-close cycle with FILE_APPEND_DATA and
OPEN_ALWAYS on the file: open failure leaves the file alone; a failed
write still creates/opens the file but adds nothing; a successful write
appends the entry at the end. -/
def appendOutcome (fs : FsFile) (entry : List Char) : IoOutcome → FsFile
  | .openFail => fs
  | .writeFail => .present fs.data
  | .ok => .present (fs.data ++ entry)

/-- Ambient process state the logging code reads: the path of the
module hosting the DLL (g_hModule), the path and pid of the current
process, and the current local time. -/
structure ProcEnv where
  modulePath : List Char
  processPath : List Char
  pid : Nat
  now : SYSTEMTIME

/-- Log from src/Logging.cpp, with its handle trace.  none models a
safe-CRT constraint handler firing (path or entry buffer too small), so
the call does not return normally; some (fs, tr) is a normal return
with the new file state and the handle events. -/
def logRunT (env : ProcEnv) (tag msg : List Char) (fs : FsFile) (o : IoOutcome) :
    Option (FsFile × List FEvent) :=
  match getLogFilePath env.modulePath MAX_PATH with
  | none => none
  | some _logPath =>
    match getTimestampBuf env.now with
    | none => none
    | some ts =>
      let entry := mkLogEntry ts tag msg
      if entry.length + 1 ≤ 1024 then
        some (appendOutcome fs entry o, eventsOf o)
      else none

/-- Log, file effect only. -/
def logRun (env : ProcEnv) (tag msg : List Char) (fs : FsFile) (o : IoOutcome) :
    Option FsFile :=
  (logRunT env tag msg fs o).map Prod.fst

/-- LogProcess from src/Logging.cpp, with its handle trace: resolve the
log path and timestamp, read the process path (truncated to its
MAX_PATH buffer), take the basename after the last backslash, format
the process-info entry and run the open-write-close cycle. -/
def logProcessRunT (env : ProcEnv) (fs : FsFile) (o : IoOutcome) :
    Option (FsFile × List FEvent) :=
  match getLogFilePath env.modulePath MAX_PATH with
  | none => none
  | some _logPath =>
    match getTimestampBuf env.now with
    | none => none
    | some ts =>
      let pp := getModuleFileNameA env.processPath MAX_PATH
      let name := basenameAfterBackslash pp
      let entry := mkProcessEntry ts name (decDigits env.pid) pp
      if entry.length + 1 ≤ 1024 then
        some (appendOutcome fs entry o, eventsOf o)
      else none

/-- LogProcess, file effect only. -/
def logProcessRun (env : ProcEnv) (fs : FsFile) (o : IoOutcome) : Option FsFile :=
  (logProcessRunT env fs o).map Prod.fst

def S_OK : Int := 0

/-- DllRegisterServer from src/DllReg.cpp: two Log calls (with their
own I/O outcomes) and an unconditional S_OK.  The COM registration
itself is an unimplemented TODO in the source, so the two Log calls are
the only effects. -/
def dllRegisterServer (env : ProcEnv) (fs : FsFile) (o1 o2 : IoOutcome) :
    Option (FsFile × Int) :=
  match logRun env "DllRegisterServer".toList "Registration started".toList fs o1 with
  | none => none
  | some fs1 =>
    match logRun env "DllRegisterServer".toList
        "Registration completed successfully".toList fs1 o2 with
    | none => none
    | some fs2 => some (fs2, S_OK)

/-- A single CRLF-terminated line: ends in CRLF and has no other CR or
LF anywhere. -/
def SingleCrlfLine (l : List Char) : Prop :=
  ∃ body, l = body ++ ['\r', '\n'] ∧ '\r' ∉ body ∧ '\n' ∉ body

/-- The timestamp layout YYYY-MM-DD HH:MM:SS.mmm for the given time:
the string splits into a four-digit year, two-digit month, day, hour,
minute and second, and three-digit milliseconds, with the fixed
separators, each field reading back as the corresponding SYSTEMTIME
component. -/
def TimestampShape (st : SYSTEMTIME) (s : List Char) : Prop :=
  ∃ y mo d h mi sec ms : List Char,
    s = y ++ '-' :: (mo ++ '-' :: (d ++ ' ' :: (h ++ ':' :: (mi ++ ':' ::
      (sec ++ '.' :: ms))))) ∧
    y.length = 4 ∧ mo.length = 2 ∧ d.length = 2 ∧ h.length = 2 ∧
    mi.length = 2 ∧ sec.length = 2 ∧ ms.length = 3 ∧
    (∀ c ∈ y, c.isDigit) ∧ (∀ c ∈ mo, c.isDigit) ∧ (∀ c ∈ d, c.isDigit) ∧
    (∀ c ∈ h, c.isDigit) ∧ (∀ c ∈ mi, c.isDigit) ∧ (∀ c ∈ sec, c.isDigit) ∧
    (∀ c ∈ ms, c.isDigit) ∧
    decValue y = st.wYear ∧ decValue mo = st.wMonth ∧ decValue d = st.wDay ∧
    decValue h = st.wHour ∧ decValue mi = st.wMinute ∧
    decValue sec = st.wSecond ∧ decValue ms = st.wMilliseconds

/-! ### Helper lemmas about lastIdxOf (strrchr) -/

theorem lastIdxOf_eq_none_iff (c : Char) (l : List Char) :
    lastIdxOf c l = none ↔ c ∉ l := by
  induction l with
  | nil => simp [lastIdxOf]
  | cons x xs ih =>
    simp only [lastIdxOf, List.mem_cons]
    cases h : lastIdxOf c xs with
    | some i =>
      have hmem : c ∈ xs := by
        by_contra hc
        rw [← ih] at hc
        simp [h] at hc
      simp [hmem]
    | none =>
      rw [h] at ih
      constructor
      · intro hif
        by_cases hx : x = c
        · simp [hx] at hif
        · push_neg
          exact ⟨fun hc => hx hc.symm, ih.mp rfl⟩
      · intro hmem
        push_neg at hmem
        have hx : ¬ x = c := fun hc => hmem.1 hc.symm
        simp [hx]

theorem lastIdxOf_lt_length {c : Char} {l : List Char} {i : Nat}
    (h : lastIdxOf c l = some i) : i < l.length := by
  induction l generalizing i with
  | nil => simp [lastIdxOf] at h
  | cons x xs ih =>
    simp only [lastIdxOf] at h
    cases hr : lastIdxOf c xs with
    | some j =>
      rw [hr] at h
      obtain rfl : j + 1 = i := by simpa using h
      have := ih hr
      simp only [List.length_cons]
      omega
    | none =>
      rw [hr] at h
      by_cases hx : x = c
      · simp [hx] at h
        obtain rfl : 0 = i := h
        simp
      · simp [hx] at h

theorem lastIdxOf_getD {c : Char} {l : List Char} {i : Nat}
    (h : lastIdxOf c l = some i) : l.getD i ' ' = c := by
  induction l generalizing i with
  | nil => simp [lastIdxOf] at h
  | cons x xs ih =>
    simp only [lastIdxOf] at h
    cases hr : lastIdxOf c xs with
    | some j =>
      rw [hr] at h
      obtain rfl : j + 1 = i := by simpa using h
      simpa using ih hr
    | none =>
      rw [hr] at h
      by_cases hx : x = c
      · simp [hx] at h
        obtain rfl : 0 = i := h
        simpa using hx
      · simp [hx] at h

theorem lastIdxOf_not_mem_drop {c : Char} {l : List Char} {i : Nat}
    (h : lastIdxOf c l = some i) : c ∉ l.drop (i + 1) := by
  induction l generalizing i with
  | nil => simp
  | cons x xs ih =>
    simp only [lastIdxOf] at h
    cases hr : lastIdxOf c xs with
    | some j =>
      rw [hr] at h
      obtain rfl : j + 1 = i := by simpa using h
      simpa using ih hr
    | none =>
      rw [hr] at h
      by_cases hx : x = c
      · simp [hx] at h
        obtain rfl : 0 = i := h
        simpa using (lastIdxOf_eq_none_iff c xs).mp hr
      · simp [hx] at h

theorem lastIdxOf_of_mem_drop {c : Char} {l : List Char} {k : Nat}
    (h : c ∈ l.drop k) : ∃ i, lastIdxOf c l = some i ∧ k ≤ i := by
  induction l generalizing k with
  | nil => simp at h
  | cons x xs ih =>
    cases k with
    | zero =>
      simp only [List.drop_zero] at h
      have hne : lastIdxOf c (x :: xs) ≠ none := fun hn =>
        (lastIdxOf_eq_none_iff c (x :: xs)).mp hn h
      cases hr : lastIdxOf c (x :: xs) with
      | none => exact absurd hr hne
      | some i => exact ⟨i, rfl, Nat.zero_le i⟩
    | succ k =>
      simp only [List.drop_succ_cons] at h
      obtain ⟨i, hi, hki⟩ := ih h
      refine ⟨i + 1, ?_, by omega⟩
      simp [lastIdxOf, hi]

theorem lastIdxOf_of_mem {c : Char} {l : List Char} (h : c ∈ l) :
    ∃ i, lastIdxOf c l = some i := by
  obtain ⟨i, hi, -⟩ := lastIdxOf_of_mem_drop (k := 0) (by simpa using h)
  exact ⟨i, hi⟩

/-! ### Helper lemmas about decimal rendering -/

theorem digitChar_isDigit (n : Nat) : (digitChar n).isDigit = true := by
  unfold digitChar
  split <;> decide

theorem digitChar_toNat {n : Nat} (h : n < 10) : (digitChar n).toNat = 48 + n := by
  interval_cases n <;> decide

theorem isDigit_ne_cr {c : Char} (h : c.isDigit = true) : c ≠ '\r' := by
  intro hc; subst hc; simp at h

theorem isDigit_ne_lf {c : Char} (h : c.isDigit = true) : c ≠ '\n' := by
  intro hc; subst hc; simp at h

theorem decDigitsAux_isDigit {fuel n : Nat} {c : Char}
    (h : c ∈ decDigitsAux fuel n) : c.isDigit = true := by
  induction fuel generalizing n with
  | zero => simp [decDigitsAux] at h
  | succ fuel ih =>
    simp only [decDigitsAux] at h
    split at h
    · simp at h
      subst h
      exact digitChar_isDigit n
    · rcases List.mem_append.mp h with h1 | h1
      · exact ih h1
      · simp at h1
        subst h1
        exact digitChar_isDigit (n % 10)

theorem decDigitsAux_ne_nil {fuel n : Nat} (h : n < fuel) :
    decDigitsAux fuel n ≠ [] := by
  cases fuel with
  | zero => omega
  | succ fuel =>
    simp only [decDigitsAux]
    split <;> simp

theorem decDigitsAux_length_le {fuel n k : Nat} (hf : n < fuel)
    (hk : 1 ≤ k) (hn : n < 10 ^ k) : (decDigitsAux fuel n).length ≤ k := by
  induction fuel generalizing n k with
  | zero => omega
  | succ fuel ih =>
    simp only [decDigitsAux]
    split
    · simpa using hk
    · rename_i hten
      push_neg at hten
      have hk2 : 2 ≤ k := by
        by_contra hlt
        push_neg at hlt
        interval_cases k
        simp at hn
        omega
      have hdiv : n / 10 < fuel :=
        lt_of_lt_of_le (Nat.div_lt_self (by omega) (by omega)) (by omega)
      have hdivpow : n / 10 < 10 ^ (k - 1) := by
        apply Nat.div_lt_of_lt_mul
        have : 10 * 10 ^ (k - 1) = 10 ^ k := by
          rw [← pow_succ']
          congr 1
          omega
        omega
      have := ih hdiv (by omega) hdivpow
      simp only [List.length_append, List.length_cons, List.length_nil]
      omega

theorem decDigits_length_le {n k : Nat} (hk : 1 ≤ k) (hn : n < 10 ^ k) :
    (decDigits n).length ≤ k :=
  decDigitsAux_length_le (Nat.lt_succ_self n) hk hn

theorem decDigits_ne_nil (n : Nat) : decDigits n ≠ [] :=
  decDigitsAux_ne_nil (Nat.lt_succ_self n)

theorem decDigits_isDigit {n : Nat} {c : Char} (h : c ∈ decDigits n) :
    c.isDigit = true := decDigitsAux_isDigit h

theorem foldl_decDigitsAux {fuel n a : Nat} (hf : n < fuel) :
    (decDigitsAux fuel n).foldl (fun a c => 10 * a + (c.toNat - 48)) a =
      a * 10 ^ (decDigitsAux fuel n).length + n := by
  induction fuel generalizing n a with
  | zero => omega
  | succ fuel ih =>
    simp only [decDigitsAux]
    split
    · rename_i hten
      simp only [List.foldl_cons, List.foldl_nil, List.length_cons, List.length_nil]
      rw [digitChar_toNat hten]
      ring_nf
      omega
    · rename_i hten
      push_neg at hten
      have hdiv : n / 10 < fuel :=
        lt_of_lt_of_le (Nat.div_lt_self (by omega) (by omega)) (by omega)
      rw [List.foldl_append, ih hdiv]
      simp only [List.foldl_cons, List.foldl_nil, List.length_append,
        List.length_cons, List.length_nil]
      rw [digitChar_toNat (Nat.mod_lt n (by omega))]
      have hmod : (48 + n % 10) - 48 = n % 10 := by omega
      rw [hmod, pow_succ]
      have hdm : 10 * (n / 10) + n % 10 = n := Nat.div_add_mod n 10
      set L := (decDigitsAux fuel (n / 10)).length
      calc 10 * (a * 10 ^ L + n / 10) + n % 10
          = a * (10 ^ L * 10) + (10 * (n / 10) + n % 10) := by ring
        _ = a * (10 ^ L * 10) + n := by rw [hdm]

theorem decValue_decDigits (n : Nat) : decValue (decDigits n) = n := by
  unfold decValue decDigits
  rw [foldl_decDigitsAux (Nat.lt_succ_self n)]
  simp

theorem foldl_zeros (z : Nat) :
    (List.replicate z '0').foldl (fun a c => 10 * a + (c.toNat - 48)) 0 = 0 := by
  induction z with
  | zero => rfl
  | succ z ih => simpa [List.replicate_succ] using ih

theorem decValue_pad0 (w n : Nat) : decValue (pad0 w n) = n := by
  unfold decValue pad0
  rw [List.foldl_append, foldl_zeros]
  exact decValue_decDigits n

theorem pad0_length {w n : Nat} (hw : 1 ≤ w) (hn : n < 10 ^ w) :
    (pad0 w n).length = w := by
  unfold pad0
  have h1 : (decDigits n).length ≤ w := decDigits_length_le hw hn
  simp only [List.length_append, List.length_replicate]
  omega

theorem pad0_length_le {w n k : Nat} (hw : w ≤ k) (hk : 1 ≤ k)
    (hn : n < 10 ^ k) : (pad0 w n).length ≤ k := by
  unfold pad0
  have h1 : (decDigits n).length ≤ k := decDigits_length_le hk hn
  simp only [List.length_append, List.length_replicate]
  omega

theorem pad0_isDigit {w n : Nat} {c : Char} (h : c ∈ pad0 w n) :
    c.isDigit = true := by
  unfold pad0 at h
  rcases List.mem_append.mp h with h1 | h1
  · obtain ⟨-, rfl⟩ := List.mem_replicate.mp h1
    decide
  · exact decDigits_isDigit h1

/-! ### Helper lemmas about the timestamp -/

theorem timestampShape_length {st : SYSTEMTIME} {s : List Char}
    (h : TimestampShape st s) : s.length = 23 := by
  obtain ⟨y, mo, d, h4, mi, sec, ms, rfl, l1, l2, l3, l4, l5, l6, l7, -⟩ := h
  simp only [List.length_append, List.length_cons]
  omega

theorem getTimestamp_shape {st : SYSTEMTIME} (h : st.Valid)
    (hy : st.wYear ≤ 9999) : TimestampShape st (getTimestamp st) := by
  obtain ⟨h1, h2, h3, h4, h5, h6, h7, h8, h9, h10⟩ := h
  have p4 : (10 : Nat) ^ 4 = 10000 := by norm_num
  have p2 : (10 : Nat) ^ 2 = 100 := by norm_num
  have p3 : (10 : Nat) ^ 3 = 1000 := by norm_num
  exact ⟨pad0 4 st.wYear, pad0 2 st.wMonth, pad0 2 st.wDay, pad0 2 st.wHour,
    pad0 2 st.wMinute, pad0 2 st.wSecond, pad0 3 st.wMilliseconds,
    rfl,
    pad0_length (by omega) (by omega), pad0_length (by omega) (by omega),
    pad0_length (by omega) (by omega), pad0_length (by omega) (by omega),
    pad0_length (by omega) (by omega), pad0_length (by omega) (by omega),
    pad0_length (by omega) (by omega),
    fun c hc => pad0_isDigit hc, fun c hc => pad0_isDigit hc,
    fun c hc => pad0_isDigit hc, fun c hc => pad0_isDigit hc,
    fun c hc => pad0_isDigit hc, fun c hc => pad0_isDigit hc,
    fun c hc => pad0_isDigit hc,
    decValue_pad0 _ _, decValue_pad0 _ _, decValue_pad0 _ _, decValue_pad0 _ _,
    decValue_pad0 _ _, decValue_pad0 _ _, decValue_pad0 _ _⟩

theorem getTimestamp_length_le {st : SYSTEMTIME} (h : st.Valid) :
    (getTimestamp st).length ≤ 24 := by
  obtain ⟨h1, h2, h3, h4, h5, h6, h7, h8, h9, h10⟩ := h
  have p5 : (10 : Nat) ^ 5 = 100000 := by norm_num
  have p2 : (10 : Nat) ^ 2 = 100 := by norm_num
  have p3 : (10 : Nat) ^ 3 = 1000 := by norm_num
  have ly : (pad0 4 st.wYear).length ≤ 5 :=
    pad0_length_le (by omega) (by omega) (by omega)
  have lmo : (pad0 2 st.wMonth).length = 2 := pad0_length (by omega) (by omega)
  have ld : (pad0 2 st.wDay).length = 2 := pad0_length (by omega) (by omega)
  have lh : (pad0 2 st.wHour).length = 2 := pad0_length (by omega) (by omega)
  have lmi : (pad0 2 st.wMinute).length = 2 := pad0_length (by omega) (by omega)
  have ls : (pad0 2 st.wSecond).length = 2 := pad0_length (by omega) (by omega)
  have lms : (pad0 3 st.wMilliseconds).length = 3 := pad0_length (by omega) (by omega)
  simp only [getTimestamp, List.length_append, List.length_cons]
  omega

theorem mem_getTimestamp {st : SYSTEMTIME} {c : Char} (h : c ∈ getTimestamp st) :
    c.isDigit = true ∨ c = '-' ∨ c = ' ' ∨ c = ':' ∨ c = '.' := by
  simp only [getTimestamp, List.mem_append, List.mem_cons] at h
  rcases h with h | rfl | h | rfl | h | rfl | h | rfl | h | rfl | h | rfl | h <;>
    first
      | exact Or.inl (pad0_isDigit h)
      | simp

theorem cr_not_mem_getTimestamp (st : SYSTEMTIME) : '\r' ∉ getTimestamp st := by
  intro h
  rcases mem_getTimestamp h with h | h | h | h | h <;> exact absurd h (by decide)

theorem lf_not_mem_getTimestamp (st : SYSTEMTIME) : '\n' ∉ getTimestamp st := by
  intro h
  rcases mem_getTimestamp h with h | h | h | h | h <;> exact absurd h (by decide)

theorem getTimestampBuf_eq {st : SYSTEMTIME} (h : st.Valid) :
    getTimestampBuf st = some (getTimestamp st) := by
  have := getTimestamp_length_le h
  show (if (getTimestamp st).length + 1 ≤ 32 then some (getTimestamp st) else none) =
    some (getTimestamp st)
  rw [if_pos (by omega)]

theorem getTimestampBuf_inv {st : SYSTEMTIME} {ts : List Char}
    (h : getTimestampBuf st = some ts) : ts = getTimestamp st := by
  have h2 : (if (getTimestamp st).length + 1 ≤ 32 then some (getTimestamp st)
      else none) = some ts := h
  split at h2
  · exact (Option.some.injEq .. ▸ h2).symm
  · simp at h2

/-! ### Helper lemmas about the entry bodies -/

theorem crlf_not_mem_entryBody {ts tag msg : List Char} {c : Char}
    (hc : c = '\r' ∨ c = '\n')
    (h1 : c ∉ ts) (h2 : c ∉ tag) (h3 : c ∉ msg) : c ∉ entryBody ts tag msg := by
  intro h
  simp only [entryBody, List.mem_cons, List.mem_append] at h
  rcases hc with rfl | rfl <;> simp [h1, h2, h3] at h

theorem crlf_not_mem_processBody {ts name pidStr path : List Char} {c : Char}
    (hc : c = '\r' ∨ c = '\n')
    (h1 : c ∉ ts) (h2 : c ∉ name) (h3 : c ∉ pidStr) (h4 : c ∉ path) :
    c ∉ processBody ts name pidStr path := by
  intro h
  simp only [processBody, List.mem_cons, List.mem_append] at h
  rcases hc with rfl | rfl <;> simp [h1, h2, h3, h4] at h

/-! ### Running Log and LogProcess: forward and inversion lemmas -/

theorem logRunT_eq {env : ProcEnv} {tag msg lp : List Char} (fs : FsFile)
    (o : IoOutcome) (hp : getLogFilePath env.modulePath MAX_PATH = some lp)
    (hv : env.now.Valid)
    (hlen : (mkLogEntry (getTimestamp env.now) tag msg).length + 1 ≤ 1024) :
    logRunT env tag msg fs o =
      some (appendOutcome fs (mkLogEntry (getTimestamp env.now) tag msg) o,
        eventsOf o) := by
  simp only [logRunT]
  rw [hp, getTimestampBuf_eq hv]
  simp [hlen]

theorem logProcessRunT_eq {env : ProcEnv} {lp : List Char} (fs : FsFile)
    (o : IoOutcome) (hp : getLogFilePath env.modulePath MAX_PATH = some lp)
    (hv : env.now.Valid)
    (hlen : (mkProcessEntry (getTimestamp env.now)
        (basenameAfterBackslash (getModuleFileNameA env.processPath MAX_PATH))
        (decDigits env.pid)
        (getModuleFileNameA env.processPath MAX_PATH)).length + 1 ≤ 1024) :
    logProcessRunT env fs o =
      some (appendOutcome fs
        (mkProcessEntry (getTimestamp env.now)
          (basenameAfterBackslash (getModuleFileNameA env.processPath MAX_PATH))
          (decDigits env.pid)
          (getModuleFileNameA env.processPath MAX_PATH)) o,
        eventsOf o) := by
  simp only [logProcessRunT]
  rw [hp, getTimestampBuf_eq hv]
  simp [hlen]

theorem logRunT_inv {env : ProcEnv} {tag msg : List Char} {fs : FsFile}
    {o : IoOutcome} {fs1 : FsFile} {tr : List FEvent}
    (h : logRunT env tag msg fs o = some (fs1, tr)) :
    fs1 = appendOutcome fs (mkLogEntry (getTimestamp env.now) tag msg) o ∧
      tr = eventsOf o := by
  simp only [logRunT] at h
  cases hp : getLogFilePath env.modulePath MAX_PATH with
  | none => rw [hp] at h; simp at h
  | some lp =>
    rw [hp] at h
    cases ht : getTimestampBuf env.now with
    | none => rw [ht] at h; simp at h
    | some ts =>
      rw [ht] at h
      obtain rfl := getTimestampBuf_inv ht
      simp only at h
      split at h
      · simp only [Option.some.injEq, Prod.mk.injEq] at h
        exact ⟨h.1.symm, h.2.symm⟩
      · simp at h

theorem logProcessRunT_inv {env : ProcEnv} {fs : FsFile} {o : IoOutcome}
    {fs1 : FsFile} {tr : List FEvent}
    (h : logProcessRunT env fs o = some (fs1, tr)) :
    fs1 = appendOutcome fs
        (mkProcessEntry (getTimestamp env.now)
          (basenameAfterBackslash (getModuleFileNameA env.processPath MAX_PATH))
          (decDigits env.pid)
          (getModuleFileNameA env.processPath MAX_PATH)) o ∧
      tr = eventsOf o := by
  simp only [logProcessRunT] at h
  cases hp : getLogFilePath env.modulePath MAX_PATH with
  | none => rw [hp] at h; simp at h
  | some lp =>
    rw [hp] at h
    cases ht : getTimestampBuf env.now with
    | none => rw [ht] at h; simp at h
    | some ts =>
      rw [ht] at h
      obtain rfl := getTimestampBuf_inv ht
      simp only at h
      split at h
      · simp only [Option.some.injEq, Prod.mk.injEq] at h
        exact ⟨h.1.symm, h.2.symm⟩
      · simp at h

theorem logRun_inv {env : ProcEnv} {tag msg : List Char} {fs : FsFile}
    {o : IoOutcome} {fs1 : FsFile}
    (h : logRun env tag msg fs o = some fs1) :
    fs1 = appendOutcome fs (mkLogEntry (getTimestamp env.now) tag msg) o := by
  unfold logRun at h
  obtain ⟨⟨fs2, tr⟩, h1, h2⟩ := Option.map_eq_some'.mp h
  obtain ⟨rfl, -⟩ := logRunT_inv h1
  simpa using h2.symm

theorem logProcessRun_inv {env : ProcEnv} {fs : FsFile} {o : IoOutcome}
    {fs1 : FsFile} (h : logProcessRun env fs o = some fs1) :
    fs1 = appendOutcome fs
      (mkProcessEntry (getTimestamp env.now)
        (basenameAfterBackslash (getModuleFileNameA env.processPath MAX_PATH))
        (decDigits env.pid)
        (getModuleFileNameA env.processPath MAX_PATH)) o := by
  unfold logProcessRun at h
  obtain ⟨⟨fs2, tr⟩, h1, h2⟩ := Option.map_eq_some'.mp h
  obtain ⟨rfl, -⟩ := logProcessRunT_inv h1
  simpa using h2.symm

/-! ### Unfolding lemmas for the resolver -/

theorem getLogFilePath_dot {p : List Char} {n i : Nat}
    (h : lastIdxOf '.' (getModuleFileNameA p n) = some i) :
    getLogFilePath p n = if i + 5 ≤ n
      then some ((getModuleFileNameA p n).take i ++ dotLog) else none := by
  unfold getLogFilePath
  simp only [h]

theorem getLogFilePath_nodot {p : List Char} {n : Nat}
    (h : lastIdxOf '.' (getModuleFileNameA p n) = none) :
    getLogFilePath p n = if (getModuleFileNameA p n).length + 5 ≤ n
      then some (getModuleFileNameA p n ++ dotLog) else none := by
  unfold getLogFilePath
  simp only [h]

/-! ### Claim theorems -/

/-- Claim C1: for every module path (fitting the path buffer) whose
final path segment contains a dot, GetLogFilePath returns the path with
everything from the final extension dot on replaced by ".log": every
character before that dot is returned unchanged, the replaced tail lies
entirely inside the final segment (no backslash at or after the dot),
and the dot replaced is the last dot of the final segment.  In
particular C:\app\plugin.dll resolves to C:\app\plugin.log (see the
witness). -/
theorem C1_resolver_replaces_final_extension (p : List Char)
    (hlen : p.length + 5 ≤ MAX_PATH)
    (hdot : '.' ∈ basenameAfterBackslash p) :
    ∃ i, lastIdxOf '.' p = some i ∧
      getLogFilePath p MAX_PATH = some (p.take i ++ dotLog) ∧
      '\\' ∉ p.drop i ∧ '.' ∉ p.drop (i + 1) := by
  have hMP : MAX_PATH = 260 := rfl
  have hbuf : getModuleFileNameA p MAX_PATH = p := by
    unfold getModuleFileNameA
    exact List.take_of_length_le (by omega)
  have hex : ∃ i, lastIdxOf '.' p = some i ∧
      (∀ j, lastIdxOf '\\' p = some j → j < i) := by
    cases hsep : lastIdxOf '\\' p with
    | some j =>
      have hb : basenameAfterBackslash p = p.drop (j + 1) := by
        unfold basenameAfterBackslash
        rw [hsep]
      rw [hb] at hdot
      obtain ⟨i, hi, hk⟩ := lastIdxOf_of_mem_drop hdot
      refine ⟨i, hi, fun j2 hj2 => ?_⟩
      have hjj : j = j2 := by simpa using hj2
      omega
    | none =>
      have hb : basenameAfterBackslash p = p := by
        unfold basenameAfterBackslash
        rw [hsep]
      rw [hb] at hdot
      obtain ⟨i, hi⟩ := lastIdxOf_of_mem hdot
      refine ⟨i, hi, fun j hj => ?_⟩
      simp at hj
  obtain ⟨i, hi, hsepi⟩ := hex
  have hilt : i < p.length := lastIdxOf_lt_length hi
  have hibuf : lastIdxOf '.' (getModuleFileNameA p MAX_PATH) = some i := by
    rw [hbuf]; exact hi
  refine ⟨i, hi, ?_, ?_, lastIdxOf_not_mem_drop hi⟩
  · rw [getLogFilePath_dot hibuf, if_pos (by omega), hbuf]
  · intro hbs
    have hdropi : p.drop i = p[i] :: p.drop (i + 1) := List.drop_eq_getElem_cons hilt
    have hgete : p[i] = '.' := by
      rw [← List.getD_eq_getElem p ' ' hilt]
      exact lastIdxOf_getD hi
    rw [hdropi, hgete] at hbs
    rcases List.mem_cons.mp hbs with h | h
    · exact absurd h (by decide)
    · cases hsep : lastIdxOf '\\' p with
      | none => exact absurd (List.drop_subset _ _ h) ((lastIdxOf_eq_none_iff _ _).mp hsep)
      | some j =>
        have hji : j < i := hsepi j hsep
        have hmem : '\\' ∈ p.drop (j + 1) := by
          have hdd : p.drop (i + 1) = (p.drop (j + 1)).drop (i - j) := by
            rw [List.drop_drop]
            congr 1
            omega
          rw [hdd] at h
          exact List.drop_subset _ _ h
        exact absurd hmem (lastIdxOf_not_mem_drop hsep)

/-- Witness for C1 at the spec scenario: module path C:\app\plugin.dll
(whose final segment plugin.dll contains a dot) resolves with the tail
from the extension dot replaced by ".log". -/
theorem C1_witness :
    (("C:\\app\\plugin.dll".toList.length + 5 ≤ MAX_PATH) ∧
      '.' ∈ basenameAfterBackslash "C:\\app\\plugin.dll".toList) ∧
    (∃ i, lastIdxOf '.' "C:\\app\\plugin.dll".toList = some i ∧
      getLogFilePath "C:\\app\\plugin.dll".toList MAX_PATH =
        some ("C:\\app\\plugin.dll".toList.take i ++ dotLog) ∧
      '\\' ∉ "C:\\app\\plugin.dll".toList.drop i ∧
      '.' ∉ "C:\\app\\plugin.dll".toList.drop (i + 1)) :=
  ⟨⟨by decide, by decide⟩,
    C1_resolver_replaces_final_extension _ (by decide) (by decide)⟩

/-- Counterexample to claim C2: the module path C:\app.v2\plugin has no
dot in its final segment (only in the directory segment app.v2), yet
GetLogFilePath does not append ".log" to the full path unmodified:
strrchr finds the directory dot and the result is C:\app.log. -/
theorem C2_counterexample :
    '.' ∉ basenameAfterBackslash "C:\\app.v2\\plugin".toList ∧
    getLogFilePath "C:\\app.v2\\plugin".toList MAX_PATH ≠
      some ("C:\\app.v2\\plugin".toList ++ dotLog) ∧
    getLogFilePath "C:\\app.v2\\plugin".toList MAX_PATH =
      some "C:\\app.log".toList :=
  ⟨by decide, by decide, by decide⟩

/-- Claim C2 amended: for every module path (fitting the path buffer)
containing no dot anywhere, GetLogFilePath appends ".log" to the full
path unmodified; in particular C:\app\plugin resolves to
C:\app\plugin.log (see the witness).  When the final segment is dotless
but an earlier directory segment has a dot, the code instead truncates
at that earlier dot (see the counterexample). -/
theorem C2_amended_append_when_no_dot (p : List Char)
    (hlen : p.length + 5 ≤ MAX_PATH) (hnodot : '.' ∉ p) :
    getLogFilePath p MAX_PATH = some (p ++ dotLog) := by
  have hMP : MAX_PATH = 260 := rfl
  have hbuf : getModuleFileNameA p MAX_PATH = p := by
    unfold getModuleFileNameA
    exact List.take_of_length_le (by omega)
  have hn : lastIdxOf '.' (getModuleFileNameA p MAX_PATH) = none := by
    rw [hbuf]; exact (lastIdxOf_eq_none_iff '.' p).mpr hnodot
  rw [getLogFilePath_nodot hn, hbuf, if_pos (by omega)]

/-- Witness for the amended C2 at the spec scenario: the dotless module
path C:\app\plugin resolves to C:\app\plugin.log. -/
theorem C2_amended_witness :
    ("C:\\app\\plugin".toList.length + 5 ≤ MAX_PATH ∧
      '.' ∉ "C:\\app\\plugin".toList) ∧
    getLogFilePath "C:\\app\\plugin".toList MAX_PATH =
      some ("C:\\app\\plugin".toList ++ dotLog) :=
  ⟨⟨by decide, by decide⟩, C2_amended_append_when_no_dot _ (by decide) (by decide)⟩

/-- Claim C7: the Log Location Resolver is a deterministic, I/O-free
function of the module path alone: two invocations within the same
process (same module path, arbitrarily different clock, pid, process
path and file state) yield the identical log path string. -/
theorem C7_resolver_deterministic (env1 env2 : ProcEnv)
    (h : env1.modulePath = env2.modulePath) :
    getLogFilePath env1.modulePath MAX_PATH =
      getLogFilePath env2.modulePath MAX_PATH := by
  rw [h]

/-- Witness for C7: two process states sharing the module path but
differing in process path, pid and wall clock resolve identically. -/
theorem C7_witness :
    (ProcEnv.mk "C:\\app\\plugin.dll".toList "C:\\x\\host.exe".toList 4
        ⟨2026, 1, 2, 3, 4, 5, 6⟩).modulePath =
      (ProcEnv.mk "C:\\app\\plugin.dll".toList "C:\\y\\other.exe".toList 99
        ⟨2027, 2, 3, 4, 5, 6, 7⟩).modulePath ∧
    getLogFilePath (ProcEnv.mk "C:\\app\\plugin.dll".toList
        "C:\\x\\host.exe".toList 4 ⟨2026, 1, 2, 3, 4, 5, 6⟩).modulePath MAX_PATH =
      getLogFilePath (ProcEnv.mk "C:\\app\\plugin.dll".toList
        "C:\\y\\other.exe".toList 99 ⟨2027, 2, 3, 4, 5, 6, 7⟩).modulePath MAX_PATH :=
  ⟨rfl, C7_resolver_deterministic _ _ rfl⟩

set_option maxRecDepth 8000

/-- Counterexample to claim C9: for the 259-character dotless module
path aaa...a the computed log path (263 characters) would overflow the
MAX_PATH buffer, but GetLogFilePath does not return normally with a
truncated string: strcat_s has no room for ".log" and invokes the
safe-CRT constraint handler (modelled by none). -/
theorem C9_counterexample :
    MAX_PATH - 1 < (idealLogPath (List.replicate 259 'a')).length ∧
    getLogFilePath (List.replicate 259 'a') MAX_PATH = none := by
  constructor <;> decide

/-- Claim C9 amended: when the computed log path would overflow the
buffer, the module path is first silently truncated to the buffer by
GetModuleFileNameA, and the call returns normally with a silently
truncated log path (which fits the buffer) whenever the truncated path
retains a dot with room for ".log" behind it; when no room remains, the
safe-CRT constraint handler fires instead of a normal return (see the
counterexample). -/
theorem C9_amended_truncation (p : List Char) (i : Nat)
    (hover : MAX_PATH - 1 < (idealLogPath p).length)
    (hdot : lastIdxOf '.' (getModuleFileNameA p MAX_PATH) = some i)
    (hroom : i + 5 ≤ MAX_PATH) :
    getLogFilePath p MAX_PATH =
      some ((getModuleFileNameA p MAX_PATH).take i ++ dotLog) ∧
    ((getModuleFileNameA p MAX_PATH).take i ++ dotLog).length ≤ MAX_PATH - 1 := by
  constructor
  · rw [getLogFilePath_dot hdot, if_pos hroom]
  · have h1 : ((getModuleFileNameA p MAX_PATH).take i).length ≤ i :=
      List.length_take_le _ _
    have hMP : MAX_PATH = 260 := rfl
    have hdl : dotLog.length = 4 := rfl
    simp only [List.length_append]
    omega

/-- Witness for the amended C9: a 352-character path whose last dot sits
past the buffer; the truncated buffer retains an earlier dot, and the
call returns a truncated log path within the buffer bound. -/
theorem C9_amended_witness :
    (MAX_PATH - 1 < (idealLogPath (List.replicate 200 'a' ++ '.' ::
        (List.replicate 100 'a' ++ '.' :: List.replicate 50 'a'))).length ∧
      lastIdxOf '.' (getModuleFileNameA (List.replicate 200 'a' ++ '.' ::
        (List.replicate 100 'a' ++ '.' :: List.replicate 50 'a')) MAX_PATH) =
        some 200 ∧
      200 + 5 ≤ MAX_PATH) ∧
    (getLogFilePath (List.replicate 200 'a' ++ '.' ::
        (List.replicate 100 'a' ++ '.' :: List.replicate 50 'a')) MAX_PATH =
      some ((getModuleFileNameA (List.replicate 200 'a' ++ '.' ::
        (List.replicate 100 'a' ++ '.' :: List.replicate 50 'a')) MAX_PATH).take 200 ++
        dotLog) ∧
    ((getModuleFileNameA (List.replicate 200 'a' ++ '.' ::
        (List.replicate 100 'a' ++ '.' :: List.replicate 50 'a')) MAX_PATH).take 200 ++
        dotLog).length ≤ MAX_PATH - 1) :=
  ⟨⟨by decide, by decide, by decide⟩,
    C9_amended_truncation _ 200 (by decide) (by decide) (by decide)⟩

/-- Claim C6 amended: for every wall-clock value GetLocalTime can
report whose year is at most 9999, GetTimestamp renders the fixed-width
sortable local-time layout YYYY-MM-DD HH:MM:SS.mmm — 23 characters, a
zero-padded four-digit year, two-digit month, day, hour, minute and
second, three-digit milliseconds, no timezone indicator — with each
field reading back as the corresponding time component.  For years of
10000 and above, which SYSTEMTIME can also report (up to 30827), the
year field widens beyond four digits (see the counterexample). -/
theorem C6_amended_timestamp_layout (st : SYSTEMTIME) (hv : st.Valid)
    (hy : st.wYear ≤ 9999) :
    TimestampShape st (getTimestamp st) ∧ (getTimestamp st).length = 23 :=
  have h := getTimestamp_shape hv hy
  ⟨h, timestampShape_length h⟩

/-- Witness for the amended C6 at a concrete local time. -/
theorem C6_witness :
    ((SYSTEMTIME.mk 2026 10 11 5 3 7 42).Valid ∧
      (SYSTEMTIME.mk 2026 10 11 5 3 7 42).wYear ≤ 9999) ∧
    (TimestampShape (SYSTEMTIME.mk 2026 10 11 5 3 7 42)
        (getTimestamp (SYSTEMTIME.mk 2026 10 11 5 3 7 42)) ∧
      (getTimestamp (SYSTEMTIME.mk 2026 10 11 5 3 7 42)).length = 23) :=
  ⟨⟨by decide, by decide⟩, C6_amended_timestamp_layout _ (by decide) (by decide)⟩

/-- Counterexample to claim C6: SYSTEMTIME years range up to 30827, so
the OS can report years above 9999; at year 10000 the sprintf %04d
field takes five digits and the rendering is 24 characters, so the
timestamp does not have the fixed-width four-digit-year layout the
claim asserts for every reportable wall-clock value. -/
theorem C6_counterexample :
    (SYSTEMTIME.mk 10000 1 1 0 0 0 0).Valid ∧
    (getTimestamp (SYSTEMTIME.mk 10000 1 1 0 0 0 0)).length = 24 ∧
    ¬ TimestampShape (SYSTEMTIME.mk 10000 1 1 0 0 0 0)
        (getTimestamp (SYSTEMTIME.mk 10000 1 1 0 0 0 0)) := by
  refine ⟨by decide, by decide, fun h => ?_⟩
  have h23 := timestampShape_length h
  have h24 : (getTimestamp (SYSTEMTIME.mk 10000 1 1 0 0 0 0)).length = 24 := by decide
  omega

/-- Claim C3: when the log file cannot be opened (for any reason, e.g.
locked by another process) or the write fails, Log and LogProcess still
return normally — no exception or error code escapes to the caller —
and the entry is simply lost (the file keeps its previous bytes).  The
hypotheses only ask that the call reaches the I/O at all: the resolver
returned a path and the formatted entries fit their 1024-byte buffers,
as they do at every call site in src. -/
theorem C3_logging_failures_are_silent (env : ProcEnv) (tag msg lp : List Char)
    (fs : FsFile) (o : IoOutcome)
    (hp : getLogFilePath env.modulePath MAX_PATH = some lp)
    (hv : env.now.Valid)
    (hlen1 : (mkLogEntry (getTimestamp env.now) tag msg).length + 1 ≤ 1024)
    (hlen2 : (mkProcessEntry (getTimestamp env.now)
        (basenameAfterBackslash (getModuleFileNameA env.processPath MAX_PATH))
        (decDigits env.pid)
        (getModuleFileNameA env.processPath MAX_PATH)).length + 1 ≤ 1024)
    (hfail : o = IoOutcome.openFail ∨ o = IoOutcome.writeFail) :
    (∃ fs1, logRun env tag msg fs o = some fs1 ∧ fs1.data = fs.data) ∧
    (∃ fs2, logProcessRun env fs o = some fs2 ∧ fs2.data = fs.data) := by
  constructor
  · refine ⟨appendOutcome fs (mkLogEntry (getTimestamp env.now) tag msg) o, ?_, ?_⟩
    · unfold logRun
      rw [logRunT_eq fs o hp hv hlen1]
      rfl
    · rcases hfail with rfl | rfl <;> rfl
  · refine ⟨appendOutcome fs
      (mkProcessEntry (getTimestamp env.now)
        (basenameAfterBackslash (getModuleFileNameA env.processPath MAX_PATH))
        (decDigits env.pid)
        (getModuleFileNameA env.processPath MAX_PATH)) o, ?_, ?_⟩
    · unfold logProcessRun
      rw [logProcessRunT_eq fs o hp hv hlen2]
      rfl
    · rcases hfail with rfl | rfl <;> rfl

/-- Witness for C3: a locked log file (open failure) during a call with
the registration tag leaves the file untouched and both calls return. -/
theorem C3_witness :
    (getLogFilePath (ProcEnv.mk "C:\\app\\plugin.dll".toList
        "C:\\x\\host.exe".toList 42 ⟨2026, 10, 11, 5, 3, 7, 42⟩).modulePath MAX_PATH =
      some "C:\\app\\plugin.log".toList ∧
      (ProcEnv.mk "C:\\app\\plugin.dll".toList "C:\\x\\host.exe".toList 42
        ⟨2026, 10, 11, 5, 3, 7, 42⟩).now.Valid ∧
      (mkLogEntry (getTimestamp (ProcEnv.mk "C:\\app\\plugin.dll".toList
          "C:\\x\\host.exe".toList 42 ⟨2026, 10, 11, 5, 3, 7, 42⟩).now)
        "DllRegisterServer".toList "Registration started".toList).length + 1 ≤ 1024 ∧
      (mkProcessEntry (getTimestamp (ProcEnv.mk "C:\\app\\plugin.dll".toList
          "C:\\x\\host.exe".toList 42 ⟨2026, 10, 11, 5, 3, 7, 42⟩).now)
        (basenameAfterBackslash (getModuleFileNameA (ProcEnv.mk
          "C:\\app\\plugin.dll".toList "C:\\x\\host.exe".toList 42
          ⟨2026, 10, 11, 5, 3, 7, 42⟩).processPath MAX_PATH))
        (decDigits (ProcEnv.mk "C:\\app\\plugin.dll".toList "C:\\x\\host.exe".toList 42
          ⟨2026, 10, 11, 5, 3, 7, 42⟩).pid)
        (getModuleFileNameA (ProcEnv.mk "C:\\app\\plugin.dll".toList
          "C:\\x\\host.exe".toList 42
          ⟨2026, 10, 11, 5, 3, 7, 42⟩).processPath MAX_PATH)).length + 1 ≤ 1024) ∧
    ((∃ fs1, logRun (ProcEnv.mk "C:\\app\\plugin.dll".toList "C:\\x\\host.exe".toList 42
        ⟨2026, 10, 11, 5, 3, 7, 42⟩) "DllRegisterServer".toList
        "Registration started".toList FsFile.absent IoOutcome.openFail = some fs1 ∧
        fs1.data = FsFile.absent.data) ∧
      (∃ fs2, logProcessRun (ProcEnv.mk "C:\\app\\plugin.dll".toList
        "C:\\x\\host.exe".toList 42 ⟨2026, 10, 11, 5, 3, 7, 42⟩) FsFile.absent
        IoOutcome.openFail = some fs2 ∧ fs2.data = FsFile.absent.data)) :=
  ⟨⟨by decide, by decide, by decide, by decide⟩,
    C3_logging_failures_are_silent _ _ _ "C:\\app\\plugin.log".toList _ _ (by decide)
      (by decide) (by decide) (by decide) (Or.inl rfl)⟩

theorem mkLogEntry_spec (ts tag msg : List Char) :
    mkLogEntry ts tag msg = "[".toList ++ ts ++ "]: [".toList ++ tag ++
      "]: ".toList ++ msg ++ "\r\n".toList := by
  have e1 : "[".toList = ['['] := rfl
  have e2 : "]: [".toList = [']', ':', ' ', '['] := rfl
  have e3 : "]: ".toList = [']', ':', ' '] := rfl
  have e4 : "\r\n".toList = ['\r', '\n'] := rfl
  rw [e1, e2, e3, e4]
  simp [mkLogEntry, entryBody]

theorem mkProcessEntry_spec (ts name pidStr path : List Char) :
    mkProcessEntry ts name pidStr path = "[".toList ++ ts ++
      "]: [ProcessInfo]: Process=".toList ++ name ++ " PID=".toList ++ pidStr ++
      " Path=".toList ++ path ++ "\r\n".toList := by
  have e1 : "[".toList = ['['] := rfl
  have e2 : "]: [ProcessInfo]: Process=".toList =
    [']', ':', ' ', '[', 'P', 'r', 'o', 'c', 'e', 's', 's', 'I', 'n', 'f', 'o',
      ']', ':', ' ', 'P', 'r', 'o', 'c', 'e', 's', 's', '='] := rfl
  have e3 : " PID=".toList = [' ', 'P', 'I', 'D', '='] := rfl
  have e4 : " Path=".toList = [' ', 'P', 'a', 't', 'h', '='] := rfl
  have e5 : "\r\n".toList = ['\r', '\n'] := rfl
  rw [e1, e2, e3, e4, e5]
  simp [mkProcessEntry, processBody]

theorem mem_basenameAfterBackslash {p : List Char} {c : Char}
    (h : c ∈ basenameAfterBackslash p) : c ∈ p := by
  unfold basenameAfterBackslash at h
  split at h
  · exact List.drop_subset _ _ h
  · exact h

theorem logRun_openFail_inv {env : ProcEnv} {tag msg : List Char} {fs fs1 : FsFile}
    (h : logRun env tag msg fs IoOutcome.openFail = some fs1) : fs1 = fs := by
  have h2 := logRun_inv h
  simpa [appendOutcome] using h2

/-- Claim C4: a successful Log call appends exactly the line
"[timestamp]: [tag]: message" terminated by CRLF, and a successful
LogProcess call appends exactly "[timestamp]: [ProcessInfo]:
Process=name PID=pid Path=fullPath" terminated by CRLF, where the name
is the basename of the hosting executable path (its suffix after the
last backslash) and the pid is printed in decimal. -/
theorem C4_line_format (env : ProcEnv) (tag msg : List Char) (fs fs1 fs2 : FsFile)
    (h1 : logRun env tag msg fs IoOutcome.ok = some fs1)
    (h2 : logProcessRun env fs IoOutcome.ok = some fs2)
    (hpp : env.processPath.length ≤ MAX_PATH - 1) :
    fs1.data = fs.data ++ ("[".toList ++ getTimestamp env.now ++ "]: [".toList ++
      tag ++ "]: ".toList ++ msg ++ "\r\n".toList) ∧
    fs2.data = fs.data ++ ("[".toList ++ getTimestamp env.now ++
      "]: [ProcessInfo]: Process=".toList ++
      basenameAfterBackslash env.processPath ++ " PID=".toList ++
      decDigits env.pid ++ " Path=".toList ++ env.processPath ++ "\r\n".toList) := by
  have hMP : MAX_PATH = 260 := rfl
  have hpp2 : getModuleFileNameA env.processPath MAX_PATH = env.processPath := by
    unfold getModuleFileNameA
    exact List.take_of_length_le (by omega)
  constructor
  · obtain rfl := logRun_inv h1
    show fs.data ++ mkLogEntry (getTimestamp env.now) tag msg = _
    rw [mkLogEntry_spec]
  · obtain rfl := logProcessRun_inv h2
    rw [hpp2]
    show fs.data ++ mkProcessEntry (getTimestamp env.now)
      (basenameAfterBackslash env.processPath) (decDigits env.pid)
      env.processPath = _
    rw [mkProcessEntry_spec]

/-- Witness for C4: a concrete successful Log and LogProcess call
producing the exact formatted lines. -/
theorem C4_witness :
    (logRun (ProcEnv.mk "C:\\app\\plugin.dll".toList "C:\\x\\host.exe".toList 42
        ⟨2026, 10, 11, 5, 3, 7, 42⟩) "DllRegisterServer".toList
        "Registration started".toList FsFile.absent IoOutcome.ok =
      some (FsFile.present
        "[2026-10-11 05:03:07.042]: [DllRegisterServer]: Registration started\r\n".toList) ∧
      logProcessRun (ProcEnv.mk "C:\\app\\plugin.dll".toList "C:\\x\\host.exe".toList 42
        ⟨2026, 10, 11, 5, 3, 7, 42⟩) FsFile.absent IoOutcome.ok =
      some (FsFile.present
        "[2026-10-11 05:03:07.042]: [ProcessInfo]: Process=host.exe PID=42 Path=C:\\x\\host.exe\r\n".toList) ∧
      ("C:\\x\\host.exe".toList.length ≤ MAX_PATH - 1)) ∧
    ((FsFile.present
        "[2026-10-11 05:03:07.042]: [DllRegisterServer]: Registration started\r\n".toList).data =
      FsFile.absent.data ++ ("[".toList ++
        getTimestamp ⟨2026, 10, 11, 5, 3, 7, 42⟩ ++ "]: [".toList ++
        "DllRegisterServer".toList ++ "]: ".toList ++
        "Registration started".toList ++ "\r\n".toList) ∧
      (FsFile.present
        "[2026-10-11 05:03:07.042]: [ProcessInfo]: Process=host.exe PID=42 Path=C:\\x\\host.exe\r\n".toList).data =
      FsFile.absent.data ++ ("[".toList ++
        getTimestamp ⟨2026, 10, 11, 5, 3, 7, 42⟩ ++
        "]: [ProcessInfo]: Process=".toList ++
        basenameAfterBackslash "C:\\x\\host.exe".toList ++ " PID=".toList ++
        decDigits 42 ++ " Path=".toList ++ "C:\\x\\host.exe".toList ++
        "\r\n".toList)) :=
  ⟨⟨by decide, by decide, by decide⟩,
    C4_line_format (ProcEnv.mk "C:\\app\\plugin.dll".toList
        "C:\\x\\host.exe".toList 42 ⟨2026, 10, 11, 5, 3, 7, 42⟩)
      "DllRegisterServer".toList "Registration started".toList FsFile.absent
      (FsFile.present
        "[2026-10-11 05:03:07.042]: [DllRegisterServer]: Registration started\r\n".toList)
      (FsFile.present
        "[2026-10-11 05:03:07.042]: [ProcessInfo]: Process=host.exe PID=42 Path=C:\\x\\host.exe\r\n".toList)
      (by decide) (by decide) (by decide)⟩

/-- Claim C5: every successful Log or LogProcess call grows the file by
exactly one CRLF-terminated line appended at its end, and every byte
previously in the file stays in place unchanged (the new content is the
old content plus the line) — the append-only invariant.  The tag,
message and process path are assumed CR/LF-free, as every call site in
src passes fixed CR/LF-free strings. -/
theorem C5_append_only (env : ProcEnv) (tag msg : List Char) (fs fs1 fs2 : FsFile)
    (h1 : logRun env tag msg fs IoOutcome.ok = some fs1)
    (h2 : logProcessRun env fs IoOutcome.ok = some fs2)
    (htag : '\r' ∉ tag ∧ '\n' ∉ tag) (hmsg : '\r' ∉ msg ∧ '\n' ∉ msg)
    (hpq : '\r' ∉ env.processPath ∧ '\n' ∉ env.processPath) :
    (∃ line, fs1.data = fs.data ++ line ∧ SingleCrlfLine line) ∧
    (∃ line, fs2.data = fs.data ++ line ∧ SingleCrlfLine line) := by
  constructor
  · obtain rfl := logRun_inv h1
    refine ⟨mkLogEntry (getTimestamp env.now) tag msg, rfl,
      entryBody (getTimestamp env.now) tag msg, rfl, ?_, ?_⟩
    · exact crlf_not_mem_entryBody (Or.inl rfl) (cr_not_mem_getTimestamp _)
        htag.1 hmsg.1
    · exact crlf_not_mem_entryBody (Or.inr rfl) (lf_not_mem_getTimestamp _)
        htag.2 hmsg.2
  · obtain rfl := logProcessRun_inv h2
    have hcr1 : '\r' ∉ getModuleFileNameA env.processPath MAX_PATH :=
      fun hm => hpq.1 (List.take_subset _ _ hm)
    have hlf1 : '\n' ∉ getModuleFileNameA env.processPath MAX_PATH :=
      fun hm => hpq.2 (List.take_subset _ _ hm)
    have hcr2 : '\r' ∉ basenameAfterBackslash (getModuleFileNameA env.processPath MAX_PATH) :=
      fun hm => hcr1 (mem_basenameAfterBackslash hm)
    have hlf2 : '\n' ∉ basenameAfterBackslash (getModuleFileNameA env.processPath MAX_PATH) :=
      fun hm => hlf1 (mem_basenameAfterBackslash hm)
    have hcr3 : '\r' ∉ decDigits env.pid :=
      fun hm => isDigit_ne_cr (decDigits_isDigit hm) rfl
    have hlf3 : '\n' ∉ decDigits env.pid :=
      fun hm => isDigit_ne_lf (decDigits_isDigit hm) rfl
    refine ⟨mkProcessEntry (getTimestamp env.now)
        (basenameAfterBackslash (getModuleFileNameA env.processPath MAX_PATH))
        (decDigits env.pid) (getModuleFileNameA env.processPath MAX_PATH), rfl,
      processBody (getTimestamp env.now)
        (basenameAfterBackslash (getModuleFileNameA env.processPath MAX_PATH))
        (decDigits env.pid) (getModuleFileNameA env.processPath MAX_PATH), rfl, ?_, ?_⟩
    · exact crlf_not_mem_processBody (Or.inl rfl) (cr_not_mem_getTimestamp _)
        hcr2 hcr3 hcr1
    · exact crlf_not_mem_processBody (Or.inr rfl) (lf_not_mem_getTimestamp _)
        hlf2 hlf3 hlf1

/-- Witness for C5 at a concrete successful call pair. -/
theorem C5_witness :
    (logRun (ProcEnv.mk "C:\\app\\plugin.dll".toList "C:\\x\\host.exe".toList 42
        ⟨2026, 10, 11, 5, 3, 7, 42⟩) "DllMain".toList
        "DLL_PROCESS_ATTACH - DLL loaded into process".toList
        (FsFile.present "old\r\n".toList) IoOutcome.ok =
      some (FsFile.present ("old\r\n".toList ++
        "[2026-10-11 05:03:07.042]: [DllMain]: DLL_PROCESS_ATTACH - DLL loaded into process\r\n".toList)) ∧
      logProcessRun (ProcEnv.mk "C:\\app\\plugin.dll".toList "C:\\x\\host.exe".toList 42
        ⟨2026, 10, 11, 5, 3, 7, 42⟩) (FsFile.present "old\r\n".toList) IoOutcome.ok =
      some (FsFile.present ("old\r\n".toList ++
        "[2026-10-11 05:03:07.042]: [ProcessInfo]: Process=host.exe PID=42 Path=C:\\x\\host.exe\r\n".toList)) ∧
      ('\r' ∉ "DllMain".toList ∧ '\n' ∉ "DllMain".toList) ∧
      ('\r' ∉ "DLL_PROCESS_ATTACH - DLL loaded into process".toList ∧
        '\n' ∉ "DLL_PROCESS_ATTACH - DLL loaded into process".toList) ∧
      ('\r' ∉ "C:\\x\\host.exe".toList ∧ '\n' ∉ "C:\\x\\host.exe".toList)) ∧
    ((∃ line, (FsFile.present ("old\r\n".toList ++
        "[2026-10-11 05:03:07.042]: [DllMain]: DLL_PROCESS_ATTACH - DLL loaded into process\r\n".toList)).data =
        (FsFile.present "old\r\n".toList).data ++ line ∧ SingleCrlfLine line) ∧
      (∃ line, (FsFile.present ("old\r\n".toList ++
        "[2026-10-11 05:03:07.042]: [ProcessInfo]: Process=host.exe PID=42 Path=C:\\x\\host.exe\r\n".toList)).data =
        (FsFile.present "old\r\n".toList).data ++ line ∧ SingleCrlfLine line)) :=
  ⟨⟨by decide, by decide, ⟨by decide, by decide⟩, ⟨by decide, by decide⟩,
      ⟨by decide, by decide⟩⟩,
    C5_append_only (ProcEnv.mk "C:\\app\\plugin.dll".toList
        "C:\\x\\host.exe".toList 42 ⟨2026, 10, 11, 5, 3, 7, 42⟩)
      "DllMain".toList "DLL_PROCESS_ATTACH - DLL loaded into process".toList
      (FsFile.present "old\r\n".toList)
      (FsFile.present ("old\r\n".toList ++
        "[2026-10-11 05:03:07.042]: [DllMain]: DLL_PROCESS_ATTACH - DLL loaded into process\r\n".toList))
      (FsFile.present ("old\r\n".toList ++
        "[2026-10-11 05:03:07.042]: [ProcessInfo]: Process=host.exe PID=42 Path=C:\\x\\host.exe\r\n".toList))
      (by decide) (by decide) ⟨by decide, by decide⟩
      ⟨by decide, by decide⟩ ⟨by decide, by decide⟩⟩

/-- Claim C8: every Log or LogProcess call that returns has balanced
handle events: the handle is closed exactly as often as it was opened,
and whenever a handle was opened the final event before returning is
CloseHandle — on every exit path, including the open-failure path
(which opens no handle); no handle outlives the call. -/
theorem C8_handle_discipline (env : ProcEnv) (tag msg : List Char) (fs fs1 fs2 : FsFile)
    (o : IoOutcome) (tr1 tr2 : List FEvent)
    (h1 : logRunT env tag msg fs o = some (fs1, tr1))
    (h2 : logProcessRunT env fs o = some (fs2, tr2)) :
    (tr1.count FEvent.openedHandle = tr1.count FEvent.closedHandle ∧
      (FEvent.openedHandle ∈ tr1 → ∃ pre, tr1 = pre ++ [FEvent.closedHandle])) ∧
    (tr2.count FEvent.openedHandle = tr2.count FEvent.closedHandle ∧
      (FEvent.openedHandle ∈ tr2 → ∃ pre, tr2 = pre ++ [FEvent.closedHandle])) := by
  obtain ⟨-, rfl⟩ := logRunT_inv h1
  obtain ⟨-, rfl⟩ := logProcessRunT_inv h2
  constructor <;>
    (cases o <;> refine ⟨by decide, fun hm => ?_⟩) <;>
    first
      | exact absurd hm (by decide)
      | exact ⟨[FEvent.openedHandle, FEvent.wroteFile], by decide⟩

/-- Witness for C8 at a concrete call pair with a successful write. -/
theorem C8_witness :
    (logRunT (ProcEnv.mk "C:\\app\\plugin.dll".toList "C:\\x\\host.exe".toList 42
        ⟨2026, 10, 11, 5, 3, 7, 42⟩) "DllMain".toList "m".toList FsFile.absent
        IoOutcome.ok =
      some (FsFile.present
        "[2026-10-11 05:03:07.042]: [DllMain]: m\r\n".toList,
        [FEvent.openedHandle, FEvent.wroteFile, FEvent.closedHandle]) ∧
      logProcessRunT (ProcEnv.mk "C:\\app\\plugin.dll".toList
        "C:\\x\\host.exe".toList 42 ⟨2026, 10, 11, 5, 3, 7, 42⟩) FsFile.absent
        IoOutcome.ok =
      some (FsFile.present
        "[2026-10-11 05:03:07.042]: [ProcessInfo]: Process=host.exe PID=42 Path=C:\\x\\host.exe\r\n".toList,
        [FEvent.openedHandle, FEvent.wroteFile, FEvent.closedHandle])) ∧
    (([FEvent.openedHandle, FEvent.wroteFile, FEvent.closedHandle].count
        FEvent.openedHandle =
      [FEvent.openedHandle, FEvent.wroteFile, FEvent.closedHandle].count
        FEvent.closedHandle ∧
      (FEvent.openedHandle ∈ [FEvent.openedHandle, FEvent.wroteFile,
        FEvent.closedHandle] → ∃ pre, [FEvent.openedHandle, FEvent.wroteFile,
        FEvent.closedHandle] = pre ++ [FEvent.closedHandle])) ∧
      ([FEvent.openedHandle, FEvent.wroteFile, FEvent.closedHandle].count
        FEvent.openedHandle =
      [FEvent.openedHandle, FEvent.wroteFile, FEvent.closedHandle].count
        FEvent.closedHandle ∧
      (FEvent.openedHandle ∈ [FEvent.openedHandle, FEvent.wroteFile,
        FEvent.closedHandle] → ∃ pre, [FEvent.openedHandle, FEvent.wroteFile,
        FEvent.closedHandle] = pre ++ [FEvent.closedHandle]))) :=
  ⟨⟨by decide, by decide⟩,
    C8_handle_discipline (ProcEnv.mk "C:\\app\\plugin.dll".toList
        "C:\\x\\host.exe".toList 42 ⟨2026, 10, 11, 5, 3, 7, 42⟩)
      "DllMain".toList "m".toList FsFile.absent
      (FsFile.present "[2026-10-11 05:03:07.042]: [DllMain]: m\r\n".toList)
      (FsFile.present
        "[2026-10-11 05:03:07.042]: [ProcessInfo]: Process=host.exe PID=42 Path=C:\\x\\host.exe\r\n".toList)
      IoOutcome.ok
      [FEvent.openedHandle, FEvent.wroteFile, FEvent.closedHandle]
      [FEvent.openedHandle, FEvent.wroteFile, FEvent.closedHandle]
      (by decide) (by decide)⟩

/-- Claim C10: whenever DllRegisterServer returns, it returns S_OK,
unconditionally — also when both of its log writes fail — and it does
nothing beyond the two Log calls ("Registration started" then
"Registration completed successfully"): the final file state is exactly
the result of those two calls, and when both fail at open the file is
completely untouched. -/
theorem C10_dllRegisterServer_sok (env : ProcEnv) (fs fsr : FsFile)
    (o1 o2 : IoOutcome) (r : Int)
    (h : dllRegisterServer env fs o1 o2 = some (fsr, r)) :
    r = S_OK ∧
    (∃ fs1, logRun env "DllRegisterServer".toList
        "Registration started".toList fs o1 = some fs1 ∧
      logRun env "DllRegisterServer".toList
        "Registration completed successfully".toList fs1 o2 = some fsr) ∧
    (o1 = IoOutcome.openFail → o2 = IoOutcome.openFail → fsr = fs) := by
  unfold dllRegisterServer at h
  split at h
  · simp at h
  · rename_i fs1 ha
    split at h
    · simp at h
    · rename_i fs2 hb
      simp only [Option.some.injEq, Prod.mk.injEq] at h
      obtain ⟨rfl, rfl⟩ := h
      refine ⟨rfl, ⟨fs1, ha, hb⟩, ?_⟩
      rintro rfl rfl
      obtain rfl := logRun_openFail_inv ha
      exact logRun_openFail_inv hb

/-- Witness for C10 with both log writes failing at open: the call
still returns S_OK and the file is untouched. -/
theorem C10_witness :
    dllRegisterServer (ProcEnv.mk "C:\\app\\plugin.dll".toList
      "C:\\x\\host.exe".toList 42 ⟨2026, 10, 11, 5, 3, 7, 42⟩) FsFile.absent
      IoOutcome.openFail IoOutcome.openFail = some (FsFile.absent, S_OK) ∧
    (S_OK = S_OK ∧
      (∃ fs1, logRun (ProcEnv.mk "C:\\app\\plugin.dll".toList
          "C:\\x\\host.exe".toList 42 ⟨2026, 10, 11, 5, 3, 7, 42⟩)
          "DllRegisterServer".toList "Registration started".toList FsFile.absent
          IoOutcome.openFail = some fs1 ∧
        logRun (ProcEnv.mk "C:\\app\\plugin.dll".toList
          "C:\\x\\host.exe".toList 42 ⟨2026, 10, 11, 5, 3, 7, 42⟩)
          "DllRegisterServer".toList
          "Registration completed successfully".toList fs1 IoOutcome.openFail =
          some FsFile.absent) ∧
      (IoOutcome.openFail = IoOutcome.openFail →
        IoOutcome.openFail = IoOutcome.openFail → FsFile.absent = FsFile.absent)) :=
  ⟨by decide, C10_dllRegisterServer_sok _ _ _ _ _ _ (by decide)⟩

end OneNoteDebug
